import Mathlib

/-!
Shallow embedding of the sparse-label / dense-grid reconciliation core of the
A-Train cloud-segmentation dataset code (`src/datasets/atrain.py`):
the interpolation recipe builder `ATrain._patch_idx_to_interp`, the batch
collator `collate_atrain`, the interpolation applicator `interp_atrain_output`,
and the evaluator `ATrain.evaluate`.

Modelling conventions:
* numpy / torch float arrays are modelled over `ℚ`; integer index arrays over `ℤ`.
* 1-D arrays are `List`s; an `(n, k)`-shaped array is a `List` of length-`k` `List`s.
* `np.mean` of an empty selection yields NaN in the source; NaN is modelled as
  `none` in `Option ℚ`, a defined mean as `some`.
* a Python `KeyError` (dict lookup miss) is modelled with `Except`: the function
  aborts with an `EvalErr` identifying the missing key, mirroring the exception.
* the in-place mutation of the batch's corner tensor performed by
  `interp_atrain_output` is modelled by explicit state passing: the function
  returns the updated batch together with the interpolated output.
-/

/-! ### Interpolation recipe builder (`ATrain._patch_idx_to_interp`) -/

/-- The four interpolation corners of one fractional point `(y, x)`, in the
source's stacking order `[topleft, topright, bottomleft, bottomright]` with
`top = ⌊y⌋`, `bottom = ⌈y⌉`, `left = ⌊x⌋`, `right = ⌈x⌉`. -/
def interpCornersOfPoint (y x : ℚ) : List (ℤ × ℤ) :=
  [(⌊y⌋, ⌊x⌋), (⌊y⌋, ⌈x⌉), (⌈y⌉, ⌊x⌋), (⌈y⌉, ⌈x⌉)]

/-- Weight of corner `c` for the fractional point `(y, x)`:
`weight_y * weight_x` with `weight_y = 1 - |c.row - y|` and
`weight_x = 1 - |c.col - x|`, exactly as in the source. -/
def interpWeightOfCorner (y x : ℚ) (c : ℤ × ℤ) : ℚ :=
  (1 - |(c.1 : ℚ) - y|) * (1 - |(c.2 : ℚ) - x|)

/-- `ATrain._patch_idx_to_interp`: given the parallel arrays of fractional
y- and x-coordinates, produce per point the list of 4 corner coordinates and
the parallel list of 4 weights. -/
def patch_idx_to_interp (idx_y idx_x : List ℚ) :
    List (List (ℤ × ℤ)) × List (List ℚ) :=
  (List.zipWith (fun y x => interpCornersOfPoint y x) idx_y idx_x,
   List.zipWith (fun y x => (interpCornersOfPoint y x).map (interpWeightOfCorner y x))
     idx_y idx_x)

/-! ### Instances and batch collation (`collate_atrain`) -/

/-- The stacked sensor tensor of one instance: only its spatial shape matters
to this core (`patch_shape = sensor_input.shape[-2:]`); the flattened channel
data is carried along opaquely. -/
structure SensorPatch where
  height : ℕ
  width : ℕ
  data : List ℚ
deriving DecidableEq, Inhabited

/-- One per-instance record as assembled by `ATrain.__getitem__`:
instance id, sensor input, interpolation recipe (corners and weights,
one length-4 list per label point) and the multi-hot cloud-scenario labels
(one row per label point). -/
structure Instance where
  instance_id : ℤ
  sensor_input : SensorPatch
  corners : List (List (ℤ × ℤ))
  weights : List (List ℚ)
  cloud_scenario : List (List ℤ)
deriving DecidableEq, Inhabited

/-- A collated batch as produced by `collate_atrain`. -/
structure Batch where
  instance_id : List ℤ
  sensor_input : List SensorPatch
  batch_idx : List ℕ
  corners : List (List (ℤ × ℤ))
  weights : List (List ℚ)
  cloud_scenario : List (List ℤ)
deriving DecidableEq, Inhabited

/-- `collate_atrain`: stack the sensor inputs, concatenate recipe corners,
weights and labels across instances, and build the owning-instance index
`batch_idx` by repeating each instance's index once per label point
(`[inst_idx] * corners.shape[0]`, concatenated). -/
def collate_atrain (batch : List Instance) : Batch :=
  { instance_id := batch.map (·.instance_id)
    sensor_input := batch.map (·.sensor_input)
    batch_idx :=
      ((List.range batch.length).map
        (fun inst_idx => List.replicate (batch.getD inst_idx default).corners.length inst_idx)).flatten
    corners := (batch.map (·.corners)).flatten
    weights := (batch.map (·.weights)).flatten
    cloud_scenario := (batch.map (·.cloud_scenario)).flatten }

/-! ### Interpolation applicator (`interp_atrain_output`) -/

/-- One corner's passage through the four in-bounds masks of
`interp_atrain_output`.  Each numpy mask assignment
(`corner_idx[corner_idx[:, :, 0] < 0] = 0` and its three siblings) selects
whole corners (boolean mask over the first two axes) and broadcasts the scalar
into **both** coordinates of every selected corner; the four assignments run
in sequence, each reading the values left by the previous one. -/
def clampCornerBug (hdim wdim : ℤ) (c : ℤ × ℤ) : ℤ × ℤ :=
  let c := if c.1 < 0 then ((0 : ℤ), (0 : ℤ)) else c
  let c := if hdim ≤ c.1 then (hdim - 1, hdim - 1) else c
  let c := if c.2 < 0 then ((0 : ℤ), (0 : ℤ)) else c
  let c := if wdim ≤ c.2 then (wdim - 1, wdim - 1) else c
  c

/-- The full clamping step of `interp_atrain_output`, applied to every corner
of every point. -/
def interpClampCorners (hdim wdim : ℤ) (corners : List (List (ℤ × ℤ))) :
    List (List (ℤ × ℤ)) :=
  corners.map (fun cs => cs.map (clampCornerBug hdim wdim))

/-- `out.permute(0, 2, 3, 1)` followed by `reshape(-1, C)` for one image of the
dense model output: a `(C, H, W)` value block becomes `H*W` rows of `C`
channel values, rows in row-major `(h, w)` order. -/
def permuteImage (img : List (List (List ℚ))) : List (List ℚ) :=
  let hdim := (img.headD []).length
  let wdim := ((img.headD []).headD []).length
  ((List.range hdim).map (fun r =>
    (List.range wdim).map (fun c =>
      img.map (fun ch => (ch.getD r []).getD c 0)))).flatten

/-- `out.permute(0, 2, 3, 1).reshape(-1, C)` for the whole `(B, C, H, W)`
dense output: the `B*H*W` rows of `C` channel values, image-major. -/
def permuteFlatten (out : List (List (List (List ℚ)))) : List (List ℚ) :=
  (out.map permuteImage).flatten

/-- Componentwise sum of two channel rows. -/
def addRows (a b : List ℚ) : List ℚ := List.zipWith (· + ·) a b

/-- Sum of a list of channel rows (`torch.sum(dim=1)` over the 4 corners). -/
def sumRows : List (List ℚ) → List ℚ
  | [] => []
  | [r] => r
  | r :: rs => addRows r (sumRows rs)

/-- The height of the batch's stacked sensor tensor (`shape[-2]`). -/
def batchHeight (batch : Batch) : ℤ := ((batch.sensor_input.headD default).height : ℤ)

/-- The width of the batch's stacked sensor tensor (`shape[-1]`). -/
def batchWidth (batch : Batch) : ℤ := ((batch.sensor_input.headD default).width : ℤ)

/-- `interp_atrain_output`: permute/flatten the dense output, clamp the recipe
corners in place (returned as the updated batch, modelling the in-place tensor
mutation), compute per corner the flat index
`batch_idx * H * W + (row * H + col)` — note the row stride is `H`, exactly as
in the source — gather the corner rows and return the weighted sums per point.
An index outside the flattened output (impossible after clamping with sane
shapes, a runtime error in the source) gathers an empty row. -/
def interp_atrain_output (batch : Batch) (out : List (List (List (List ℚ)))) :
    Batch × List (List ℚ) :=
  let outFlat := permuteFlatten out
  let hdim := batchHeight batch
  let wdim := batchWidth batch
  let corner_idx := interpClampCorners hdim wdim batch.corners
  let pointRows := List.zipWith
    (fun b cs => cs.map (fun c : ℤ × ℤ =>
      outFlat.getD ((b : ℤ) * hdim * wdim + (c.1 * hdim + c.2)).toNat []))
    batch.batch_idx corner_idx
  let out_interp := List.zipWith
    (fun ws rows => sumRows (List.zipWith (fun w row => row.map (fun v => w * v)) ws rows))
    batch.weights pointRows
  ({ batch with corners := corner_idx }, out_interp)

/-! ### Evaluator (`ATrain.evaluate`) -/

/-- The metric names evaluated by default (`ALL_METRICS`). -/
def ALL_METRICS : List String :=
  ["cloud_mask_accuracy", "cloud_scenario_accuracy",
   "cloudtop_height_bin_accuracy", "cloudtop_height_bin_offset_error"]

/-- `np.mean` over `ℚ`: `none` models the NaN produced on an empty array. -/
def meanQ (l : List ℚ) : Option ℚ :=
  if l.length = 0 then none else some (l.sum / (l.length : ℚ))

/-- `1` for `true`, `0` for `false` (numpy boolean arithmetic under `np.mean`). -/
def boolIndicator (b : Bool) : ℚ := if b then 1 else 0

/-- `(arr > 0).any(axis=1)`: per row, whether any entry is positive. -/
def cloudMask (cs : List (List ℤ)) : List Bool :=
  cs.map (fun row => row.any (fun v => 0 < v))

/-- Bin squashing (`np.sum(gt, axis=1, keepdims=True) > 0`, booleans then
used as 0/1 numbers): each row collapses to a single 0/1 entry. -/
def squashBins (cs : List (List ℤ)) : List (List ℤ) :=
  cs.map (fun row => [if 0 < row.sum then (1 : ℤ) else 0])

/-- `_min(np.where(row)[0])`: index of the first nonzero entry, `-1` if none. -/
def firstNonzeroIdx (row : List ℤ) : ℤ :=
  match row.findIdx? (fun v => v != 0) with
  | some i => (i : ℤ)
  | none => -1

/-- `h_bins`: per pixel, the lowest-index nonzero bin (or `-1`). -/
def hBins (cs : List (List ℤ)) : List ℤ := cs.map firstNonzeroIdx

/-- `cloud_mask_accuracy`: mean agreement of the two cloud masks. -/
def cloud_mask_accuracy (gt_cs pred : List (List ℤ)) : Option ℚ :=
  meanQ (List.zipWith (fun a b => boolIndicator (a == b)) (cloudMask gt_cs) (cloudMask pred))

/-- `cloud_scenario_accuracy`: mean elementwise agreement of the full
multi-hot arrays. -/
def cloud_scenario_accuracy (gt_cs pred : List (List ℤ)) : Option ℚ :=
  meanQ ((List.zipWith (fun r1 r2 => List.zipWith (fun a b => boolIndicator (a == b)) r1 r2)
    gt_cs pred).flatten)

/-- `cloudtop_height_bin_accuracy`: mean agreement of predicted and
ground-truth cloud-top bin indices. -/
def cloudtop_height_bin_accuracy (gt_cs pred : List (List ℤ)) : Option ℚ :=
  meanQ (List.zipWith (fun a b => boolIndicator (a == b)) (hBins pred) (hBins gt_cs))

/-- `cloudtop_height_bin_offset_error`: mean of `|h_bins_pred - h_bins_gt|`
restricted to pixels whose masks are both cloudy (`none` = NaN when that
selection is empty). -/
def cloudtop_height_bin_offset_error (gt_cs pred : List (List ℤ)) : Option ℚ :=
  let both_clouds := List.zipWith (fun p g => p && g) (cloudMask pred) (cloudMask gt_cs)
  let offs := List.zipWith (fun hp hg => ((hp - hg).natAbs : ℚ)) (hBins pred) (hBins gt_cs)
  meanQ ((List.zipWith (fun b o => if b then [o] else []) both_clouds offs).flatten)

/-- Dispatch on the four recognized metric names (`none` for a requested name
the evaluator never appends to). -/
def metricValue (name : String) (gt_cs pred : List (List ℤ)) : Option (Option ℚ) :=
  if name = "cloud_mask_accuracy" then some (cloud_mask_accuracy gt_cs pred)
  else if name = "cloud_scenario_accuracy" then some (cloud_scenario_accuracy gt_cs pred)
  else if name = "cloudtop_height_bin_accuracy" then some (cloudtop_height_bin_accuracy gt_cs pred)
  else if name = "cloudtop_height_bin_offset_error" then
    some (cloudtop_height_bin_offset_error gt_cs pred)
  else none

/-- The Python `KeyError`s `evaluate` can raise: the split id is absent from
`self.instance_info`, or absent from `predictions`. -/
inductive EvalErr where
  | missingInfo (inst_id : ℤ)
  | missingPred (inst_id : ℤ)
deriving DecidableEq

/-- The evaluator's return value: the per-metric per-instance arrays in
request order, plus the `instance_ids` entry (`list(self.instance_info.keys())`
in the source). -/
structure EvalResult where
  metricArrays : List (String × List (Option ℚ))
  instance_ids : List ℤ
deriving DecidableEq

/-- The body of `evaluate`'s loop over `self.instance_ids`.  For an id absent
from `predictions` it first appends `0` to every requested metric and then —
the branch has no `continue` — still executes `pred = predictions[inst_id]`,
raising `KeyError`. -/
def evalLoop (instance_info : List (ℤ × List (List ℤ)))
    (predictions : List (ℤ × List (List ℤ))) :
    List (String × List (Option ℚ)) → List ℤ →
    Except EvalErr (List (String × List (Option ℚ)))
  | acc, [] => .ok acc
  | acc, inst_id :: rest =>
    let acc := if (predictions.lookup inst_id).isNone then
        acc.map (fun p => (p.1, p.2 ++ [some 0])) else acc
    match instance_info.lookup inst_id with
    | none => .error (.missingInfo inst_id)
    | some gt₀ =>
      match predictions.lookup inst_id with
      | none => .error (.missingPred inst_id)
      | some pred =>
        let gt_cs := if (pred.headD []).length = 1 then squashBins gt₀ else gt₀
        let acc := acc.map (fun p =>
          match metricValue p.1 gt_cs pred with
          | some v => (p.1, p.2 ++ [v])
          | none => p)
        evalLoop instance_info predictions acc rest

/-- `ATrain.evaluate`: run the loop over the split's instance ids, starting
from an empty array per requested metric name (`{m: [] for m in metrics}`,
hence `eraseDups`), and attach `instance_ids := list(self.instance_info.keys())`. -/
def evaluate (instance_info : List (ℤ × List (List ℤ))) (instance_ids : List ℤ)
    (predictions : List (ℤ × List (List ℤ))) (metricNames : List String) :
    Except EvalErr EvalResult :=
  let init := metricNames.eraseDups.map (fun m => (m, ([] : List (Option ℚ))))
  match evalLoop instance_info predictions init instance_ids with
  | .error e => .error e
  | .ok acc => .ok ⟨acc, instance_info.map (·.1)⟩

/-! ### Helper lemmas -/

/-- Membership in a `zipWith` comes from members of the two lists. -/
theorem mem_zipWith_elim {α β γ : Type} {f : α → β → γ} {c : γ} :
    ∀ {l₁ : List α} {l₂ : List β}, c ∈ List.zipWith f l₁ l₂ →
      ∃ a ∈ l₁, ∃ b ∈ l₂, c = f a b := by
  intro l₁
  induction l₁ with
  | nil => intro l₂ h; simp at h
  | cons a t ih =>
    intro l₂ h
    cases l₂ with
    | nil => simp at h
    | cons b t₂ =>
      rcases List.mem_cons.1 h with h | h
      · exact ⟨a, List.mem_cons_self a t, b, List.mem_cons_self b t₂, h⟩
      · obtain ⟨a', ha', b', hb', rfl⟩ := ih h
        exact ⟨a', List.mem_cons_of_mem a ha', b', List.mem_cons_of_mem b hb', rfl⟩

/-- The floor-side axis weight equals `1 - fract`. -/
theorem floor_axis_weight (y : ℚ) : 1 - |((⌊y⌋ : ℤ) : ℚ) - y| = 1 - Int.fract y := by
  have h : ((⌊y⌋ : ℤ) : ℚ) - y ≤ 0 := by linarith [Int.floor_le y]
  rw [abs_of_nonpos h, neg_sub, Int.self_sub_floor]

/-- The ceil-side axis weight, before resolving `⌈y⌉`. -/
theorem ceil_axis_weight (y : ℚ) :
    1 - |((⌈y⌉ : ℤ) : ℚ) - y| = 1 - (((⌈y⌉ : ℤ) : ℚ) - y) := by
  have h : 0 ≤ ((⌈y⌉ : ℤ) : ℚ) - y := by linarith [Int.le_ceil y]
  rw [abs_of_nonneg h]

/-- Per-point weight sum for a strictly fractional point. -/
theorem point_weight_sum (y x : ℚ) (hy : Int.fract y ≠ 0) (hx : Int.fract x ≠ 0) :
    ((interpCornersOfPoint y x).map (interpWeightOfCorner y x)).sum = 1 := by
  simp only [interpCornersOfPoint, interpWeightOfCorner, List.map_cons, List.map_nil,
    List.sum_cons, List.sum_nil]
  rw [floor_axis_weight y, floor_axis_weight x, ceil_axis_weight y, ceil_axis_weight x,
    Int.ceil_sub_self_eq hy, Int.ceil_sub_self_eq hx]
  ring

/-- Both axis weights of any corner produced for a point are in `[0, 1]`;
here we only need nonnegativity of the corner weight. -/
theorem point_weight_nonneg (y x : ℚ) (w : ℚ)
    (hw : w ∈ (interpCornersOfPoint y x).map (interpWeightOfCorner y x)) : 0 ≤ w := by
  have hfl : ∀ z : ℚ, 0 ≤ 1 - |((⌊z⌋ : ℤ) : ℚ) - z| := by
    intro z
    rw [floor_axis_weight z]
    have := Int.fract_lt_one z
    linarith
  have hcl : ∀ z : ℚ, 0 ≤ 1 - |((⌈z⌉ : ℤ) : ℚ) - z| := by
    intro z
    rw [ceil_axis_weight z]
    have := Int.ceil_lt_add_one z
    linarith
  simp only [interpCornersOfPoint, List.map_cons, List.map_nil,
    List.mem_cons, List.not_mem_nil, or_false] at hw
  rcases hw with rfl | rfl | rfl | rfl
  · exact mul_nonneg (hfl y) (hfl x)
  · exact mul_nonneg (hfl y) (hcl x)
  · exact mul_nonneg (hcl y) (hfl x)
  · exact mul_nonneg (hcl y) (hcl x)

/-! ### C4 -/

/-- **C4.** For equal-length coordinate arrays whose entries are all strictly
fractional (no exact integers), every per-point weight list produced by
`patch_idx_to_interp` sums to exactly 1 (over `ℚ`). -/
theorem patch_idx_to_interp_weight_sum_one (idx_y idx_x : List ℚ)
    (hlen : idx_y.length = idx_x.length)
    (hy : ∀ y ∈ idx_y, Int.fract y ≠ 0) (hx : ∀ x ∈ idx_x, Int.fract x ≠ 0) :
    ∀ ws ∈ (patch_idx_to_interp idx_y idx_x).2, ws.sum = 1 := by
  intro ws hws
  obtain ⟨y, hy', x, hx', rfl⟩ := mem_zipWith_elim hws
  exact point_weight_sum y x (hy y hy') (hx x hx')

/-- Witness for C4 at the single point `(3/2, 7/2)`: its weight list sums
to 1. -/
theorem patch_idx_to_interp_weight_sum_one_witness :
    ((patch_idx_to_interp [3/2] [7/2]).2.headD []).sum = 1 := by
  refine patch_idx_to_interp_weight_sum_one [3/2] [7/2] rfl ?_ ?_
    ((patch_idx_to_interp [3/2] [7/2]).2.headD []) (List.mem_cons_self _ _)
  · intro y hy
    rw [List.mem_singleton.1 hy]
    rw [Int.fract]
    norm_num [Int.floor_eq_iff]
  · intro x hx
    rw [List.mem_singleton.1 hx]
    rw [Int.fract]
    norm_num [Int.floor_eq_iff]

/-! ### C9 -/

/-- **C9.** Every weight produced by `patch_idx_to_interp` is nonnegative
(each axis weight `1 - |corner - coordinate|` lies in `[0, 1]`, and the
corner weight is their product).  Over `ℚ` every coordinate is finite, which
models the claim's non-NaN/non-Inf restriction. -/
theorem patch_idx_to_interp_weights_nonneg (idx_y idx_x : List ℚ) :
    ∀ ws ∈ (patch_idx_to_interp idx_y idx_x).2, ∀ w ∈ ws, 0 ≤ w := by
  intro ws hws w hw
  obtain ⟨y, _, x, _, rfl⟩ := mem_zipWith_elim hws
  exact point_weight_nonneg y x w hw

/-- Witness for C9: the first weight of the first point of the array pair
`([-3/2, 2], [5/2, 11/4])` is nonnegative. -/
theorem patch_idx_to_interp_weights_nonneg_witness :
    0 ≤ ((patch_idx_to_interp [-3/2, 2] [5/2, 11/4]).2.headD []).headD 0 :=
  patch_idx_to_interp_weights_nonneg [-3/2, 2] [5/2, 11/4]
    ((patch_idx_to_interp [-3/2, 2] [5/2, 11/4]).2.headD []) (List.mem_cons_self _ _)
    (((patch_idx_to_interp [-3/2, 2] [5/2, 11/4]).2.headD []).headD 0)
    (List.mem_cons_self _ _)

/-! ### C5 -/

/-- **C5.** At a point whose two coordinates are exact integers, the floor and
ceil corners coincide on each axis, all four corners are the same grid
location, every weight is the full `1`, and the weights sum to `4`, not `1`. -/
theorem patch_idx_to_interp_integer_point (y x : ℚ)
    (hy : Int.fract y = 0) (hx : Int.fract x = 0) :
    (⌈y⌉ = ⌊y⌋ ∧ ⌈x⌉ = ⌊x⌋) ∧
    interpCornersOfPoint y x = List.replicate 4 (⌊y⌋, ⌊x⌋) ∧
    (interpCornersOfPoint y x).map (interpWeightOfCorner y x) = List.replicate 4 1 ∧
    ((interpCornersOfPoint y x).map (interpWeightOfCorner y x)).sum = 4 := by
  have hy' : y = ((⌊y⌋ : ℤ) : ℚ) := by
    have := Int.self_sub_floor y
    rw [hy] at this
    linarith
  have hx' : x = ((⌊x⌋ : ℤ) : ℚ) := by
    have := Int.self_sub_floor x
    rw [hx] at this
    linarith
  have hcy : ⌈y⌉ = ⌊y⌋ := by rw [hy', Int.ceil_intCast, Int.floor_intCast]
  have hcx : ⌈x⌉ = ⌊x⌋ := by rw [hx', Int.ceil_intCast, Int.floor_intCast]
  have hwy : 1 - |((⌊y⌋ : ℤ) : ℚ) - y| = 1 := by
    rw [floor_axis_weight y, hy]
    norm_num
  have hwx : 1 - |((⌊x⌋ : ℤ) : ℚ) - x| = 1 := by
    rw [floor_axis_weight x, hx]
    norm_num
  refine ⟨⟨hcy, hcx⟩, ?_, ?_, ?_⟩
  · simp [interpCornersOfPoint, hcy, hcx, List.replicate]
  · simp only [interpCornersOfPoint, interpWeightOfCorner, hcy, hcx, List.map_cons,
      List.map_nil, hwy, hwx, mul_one, one_mul, List.replicate]
  · simp only [interpCornersOfPoint, interpWeightOfCorner, hcy, hcx, List.map_cons,
      List.map_nil, List.sum_cons, List.sum_nil, hwy, hwx]
    ring

/-- Witness for C5 at the integer point `(2, 3)`. -/
theorem patch_idx_to_interp_integer_point_witness :
    ((interpCornersOfPoint 2 3).map (interpWeightOfCorner 2 3)).sum = 4 := by
  have h2 : Int.fract (2 : ℚ) = 0 := by
    rw [Int.fract]
    norm_num [Int.floor_eq_iff]
  have h3 : Int.fract (3 : ℚ) = 0 := by
    rw [Int.fract]
    norm_num [Int.floor_eq_iff]
  exact (patch_idx_to_interp_integer_point 2 3 h2 h3).2.2.2

/-! ### C7 -/

/-- Indexing into a concatenation: position `offset-of-block-j + k` reads
entry `k` of block `j`. -/
theorem flatten_getElem_eq {α : Type} :
    ∀ (L : List (List α)) (j k : ℕ) (hj : j < L.length),
      k < (L.get ⟨j, hj⟩).length →
      L.flatten[((L.take j).map List.length).sum + k]? = (L.get ⟨j, hj⟩)[k]? := by
  intro L
  induction L with
  | nil => intro j k hj _; exact absurd hj (by simp)
  | cons l ls ih =>
    intro j k hj hk
    cases j with
    | zero =>
      simp only [List.take_zero, List.map_nil, List.sum_nil, Nat.zero_add, List.flatten_cons]
      exact List.getElem?_append_left hk
    | succ j' =>
      have hj' : j' < ls.length := Nat.lt_of_succ_lt_succ hj
      have hk' : k < (ls.get ⟨j', hj'⟩).length := hk
      simp only [List.take_succ_cons, List.map_cons, List.sum_cons, List.flatten_cons]
      rw [Nat.add_assoc, List.getElem?_append_right (Nat.le_add_right l.length _),
        Nat.add_sub_cancel_left]
      exact ih j' k hj' hk'

/-- Mapping an indexed read over `range j` is mapping over the prefix. -/
theorem map_range_getD {α β : Type} (f : α → β) (d : α) :
    ∀ (l : List α) (j : ℕ), j ≤ l.length →
      (List.range j).map (fun i => f (l.getD i d)) = (l.take j).map f := by
  intro l
  induction l with
  | nil =>
    intro j hj
    have : j = 0 := Nat.le_zero.1 hj
    subst this
    simp
  | cons a t ih =>
    intro j hj
    cases j with
    | zero => simp
    | succ j' =>
      have hj' : j' ≤ t.length := Nat.le_of_succ_le_succ hj
      rw [List.range_succ_eq_map]
      simp only [List.map_cons, List.getD_cons_zero, List.map_map, List.take_succ_cons]
      congr 1
      rw [← ih j' hj']
      apply List.map_congr_left
      intro i _
      simp [Function.comp, List.getD_cons_succ]

/-- **C7.** Collation point accounting: the concatenated corner, weight and
label arrays and the owning-instance index all have length `∑ P_i`; the
owning-instance entry at the position of instance `j`'s point `k` is `j`; and
concatenation preserves point order within each instance and instance order
within the batch (the entry at offset-of-`j` + `k` is instance `j`'s entry `k`).
The hypotheses record the data-model invariant that each instance carries one
weight list and one label row per point. -/
theorem collate_atrain_point_structure (batch : List Instance)
    (hw : ∀ inst ∈ batch, inst.weights.length = inst.corners.length)
    (hc : ∀ inst ∈ batch, inst.cloud_scenario.length = inst.corners.length) :
    ((collate_atrain batch).corners.length = (batch.map (fun inst => inst.corners.length)).sum ∧
     (collate_atrain batch).weights.length = (batch.map (fun inst => inst.corners.length)).sum ∧
     (collate_atrain batch).cloud_scenario.length
        = (batch.map (fun inst => inst.corners.length)).sum ∧
     (collate_atrain batch).batch_idx.length
        = (batch.map (fun inst => inst.corners.length)).sum) ∧
    (∀ (j k : ℕ) (hj : j < batch.length),
      k < (batch.get ⟨j, hj⟩).corners.length →
      ((collate_atrain batch).batch_idx[((batch.take j).map
          (fun inst => inst.corners.length)).sum + k]? = some j ∧
       (collate_atrain batch).corners[((batch.take j).map
          (fun inst => inst.corners.length)).sum + k]? = (batch.get ⟨j, hj⟩).corners[k]? ∧
       (collate_atrain batch).weights[((batch.take j).map
          (fun inst => inst.corners.length)).sum + k]? = (batch.get ⟨j, hj⟩).weights[k]? ∧
       (collate_atrain batch).cloud_scenario[((batch.take j).map
          (fun inst => inst.corners.length)).sum + k]?
          = (batch.get ⟨j, hj⟩).cloud_scenario[k]?)) := by
  have hwtake : ∀ j : ℕ, ((batch.take j).map (fun inst => inst.weights.length)).sum
      = ((batch.take j).map (fun inst => inst.corners.length)).sum := by
    intro j
    exact congrArg List.sum
      (List.map_congr_left (fun a ha => hw a (List.take_subset j batch ha)))
  have hctake : ∀ j : ℕ, ((batch.take j).map (fun inst => inst.cloud_scenario.length)).sum
      = ((batch.take j).map (fun inst => inst.corners.length)).sum := by
    intro j
    exact congrArg List.sum
      (List.map_congr_left (fun a ha => hc a (List.take_subset j batch ha)))
  constructor
  · refine ⟨?_, ?_, ?_, ?_⟩
    · simp only [collate_atrain, List.length_flatten, List.map_map]
      exact congrArg List.sum (List.map_congr_left (fun a _ => rfl))
    · simp only [collate_atrain, List.length_flatten, List.map_map]
      exact congrArg List.sum (List.map_congr_left (fun a ha => hw a ha))
    · simp only [collate_atrain, List.length_flatten, List.map_map]
      exact congrArg List.sum (List.map_congr_left (fun a ha => hc a ha))
    · simp only [collate_atrain, List.length_flatten, List.map_map]
      rw [show (List.length ∘ fun inst_idx =>
          List.replicate (batch.getD inst_idx default).corners.length inst_idx)
          = fun inst_idx => (batch.getD inst_idx default).corners.length by
        funext i; simp [Function.comp]]
      rw [map_range_getD (fun inst => inst.corners.length) default batch (batch.length)
        (Nat.le_refl _), List.take_length]
  · intro j k hj hk
    refine ⟨?_, ?_, ?_, ?_⟩
    · -- batch_idx entry
      have hjr : j < ((List.range batch.length).map
          (fun inst_idx => List.replicate (batch.getD inst_idx default).corners.length
            inst_idx)).length := by
        simpa using hj
      have hget : (((List.range batch.length).map
          (fun inst_idx => List.replicate (batch.getD inst_idx default).corners.length
            inst_idx)).get ⟨j, hjr⟩)
          = List.replicate (batch.get ⟨j, hj⟩).corners.length j := by
        simp [List.getElem_map, List.getElem_range, List.getElem?_eq_getElem hj]
      have hkrep : k < (List.replicate (batch.get ⟨j, hj⟩).corners.length j).length := by
        simpa [List.length_replicate] using hk
      have := flatten_getElem_eq ((List.range batch.length).map
          (fun inst_idx => List.replicate (batch.getD inst_idx default).corners.length
            inst_idx)) j k hjr (by rw [hget]; exact hkrep)
      rw [hget] at this
      have hoff : ((((List.range batch.length).map
          (fun inst_idx => List.replicate (batch.getD inst_idx default).corners.length
            inst_idx)).take j).map List.length).sum
          = ((batch.take j).map (fun inst => inst.corners.length)).sum := by
        rw [← List.map_take, List.map_map, List.take_range]
        have hmin : j ⊓ batch.length = j := Nat.min_eq_left (Nat.le_of_lt hj)
        rw [hmin]
        rw [show (List.length ∘ fun inst_idx =>
            List.replicate (batch.getD inst_idx default).corners.length inst_idx)
            = fun inst_idx => (batch.getD inst_idx default).corners.length by
          funext i; simp [Function.comp]]
        rw [map_range_getD (fun inst => inst.corners.length) default batch j
          (Nat.le_of_lt hj)]
      rw [hoff] at this
      rw [show (collate_atrain batch).batch_idx = ((List.range batch.length).map
          (fun inst_idx => List.replicate (batch.getD inst_idx default).corners.length
            inst_idx)).flatten from rfl, this, List.getElem?_replicate]
      exact if_pos hk
    · -- corners entry
      have hjm : j < (batch.map (fun inst => inst.corners)).length := by simpa using hj
      have hgm : ((batch.map (fun inst => inst.corners)).get ⟨j, hjm⟩)
          = (batch.get ⟨j, hj⟩).corners := by
        simp [List.getElem_map]
      have := flatten_getElem_eq (batch.map (fun inst => inst.corners)) j k hjm
        (by rw [hgm]; exact hk)
      rw [hgm] at this
      rw [show (collate_atrain batch).corners
          = (batch.map (fun inst => inst.corners)).flatten from rfl]
      rw [← this, ← List.map_take, List.map_map]
      rfl
    · -- weights entry
      have hjm : j < (batch.map (fun inst => inst.weights)).length := by simpa using hj
      have hgm : ((batch.map (fun inst => inst.weights)).get ⟨j, hjm⟩)
          = (batch.get ⟨j, hj⟩).weights := by
        simp [List.getElem_map]
      have hkw : k < (batch.get ⟨j, hj⟩).weights.length := by
        rw [hw (batch.get ⟨j, hj⟩) (List.get_mem batch j hj)]
        exact hk
      have := flatten_getElem_eq (batch.map (fun inst => inst.weights)) j k hjm
        (by rw [hgm]; exact hkw)
      rw [hgm] at this
      rw [show (collate_atrain batch).weights
          = (batch.map (fun inst => inst.weights)).flatten from rfl]
      have hoff : (((batch.map (fun inst => inst.weights)).take j).map List.length).sum
          = ((batch.take j).map (fun inst => inst.corners.length)).sum := by
        rw [← List.map_take, List.map_map]
        have h1 : ((batch.take j).map (List.length ∘ fun inst => inst.weights)).sum
            = ((batch.take j).map (fun inst => inst.weights.length)).sum :=
          congrArg List.sum (List.map_congr_left (fun a _ => rfl))
        rw [h1, hwtake j]
      rw [← hoff]
      exact this
    · -- cloud_scenario entry
      have hjm : j < (batch.map (fun inst => inst.cloud_scenario)).length := by simpa using hj
      have hgm : ((batch.map (fun inst => inst.cloud_scenario)).get ⟨j, hjm⟩)
          = (batch.get ⟨j, hj⟩).cloud_scenario := by
        simp [List.getElem_map]
      have hkc : k < (batch.get ⟨j, hj⟩).cloud_scenario.length := by
        rw [hc (batch.get ⟨j, hj⟩) (List.get_mem batch j hj)]
        exact hk
      have := flatten_getElem_eq (batch.map (fun inst => inst.cloud_scenario)) j k hjm
        (by rw [hgm]; exact hkc)
      rw [hgm] at this
      rw [show (collate_atrain batch).cloud_scenario
          = (batch.map (fun inst => inst.cloud_scenario)).flatten from rfl]
      have hoff : (((batch.map (fun inst => inst.cloud_scenario)).take j).map List.length).sum
          = ((batch.take j).map (fun inst => inst.corners.length)).sum := by
        rw [← List.map_take, List.map_map]
        have h1 : ((batch.take j).map (List.length ∘ fun inst => inst.cloud_scenario)).sum
            = ((batch.take j).map (fun inst => inst.cloud_scenario.length)).sum :=
          congrArg List.sum (List.map_congr_left (fun a _ => rfl))
        rw [h1, hctake j]
      rw [← hoff]
      exact this

/-- A two-point instance for the collation witness. -/
def w7a : Instance :=
  { instance_id := 10, sensor_input := ⟨2, 2, List.replicate 4 0⟩,
    corners := [[(0, 0), (0, 1), (1, 0), (1, 1)], [(0, 1), (0, 2), (1, 1), (1, 2)]],
    weights := [[1, 0, 0, 0], [0, 1, 0, 0]],
    cloud_scenario := [[1], [0]] }

/-- A one-point instance for the collation witness. -/
def w7b : Instance :=
  { instance_id := 11, sensor_input := ⟨2, 2, List.replicate 4 0⟩,
    corners := [[(1, 0), (1, 1), (2, 0), (2, 1)]],
    weights := [[0, 0, 1, 0]],
    cloud_scenario := [[1]] }

/-- Witness for C7 on a concrete two-instance batch (2 + 1 points): the total
point count is 3 and the point of instance 1 carries owning index 1. -/
theorem collate_atrain_point_structure_witness :
    (collate_atrain [w7a, w7b]).batch_idx.length = 3 ∧
    (collate_atrain [w7a, w7b]).batch_idx[((([w7a, w7b].take 1).map
      (fun inst => inst.corners.length)).sum + 0)]? = some 1 := by
  constructor
  · have h := (collate_atrain_point_structure [w7a, w7b]
      (by decide) (by decide)).1.2.2.2
    rw [h]
    decide
  · exact ((collate_atrain_point_structure [w7a, w7b] (by decide) (by decide)).2
      1 0 (by decide) (by decide)).1

/-! ### C8 and C2: the in-bounds masks of the applicator -/

/-- A corner already inside the grid passes the four masks unchanged. -/
theorem clampCornerBug_inbounds {hdim wdim : ℤ} {c : ℤ × ℤ}
    (h0 : 0 ≤ c.1) (h1 : c.1 < hdim) (h2 : 0 ≤ c.2) (h3 : c.2 < wdim) :
    clampCornerBug hdim wdim c = c := by
  simp only [clampCornerBug]
  split_ifs <;> first | rfl | (exfalso; omega)

/-- **C2 (counter-evidence).** The mask assignments do *not* clamp the two
coordinates independently: on a 2×2 patch the corner `(-1, 1)` — row one step
above the grid, column in range — becomes `(0, 0)`, not the
independently-clamped `(0, 1)`; likewise `(2, 0)` becomes `(1, 1)`, not
`(1, 0)`: the out-of-range row drags the in-range column with it. -/
theorem clampCornerBug_not_independent :
    clampCornerBug 2 2 (-1, 1) = (0, 0) ∧ clampCornerBug 2 2 (-1, 1) ≠ (0, 1) ∧
    clampCornerBug 2 2 (2, 0) = (1, 1) ∧ clampCornerBug 2 2 (2, 0) ≠ (1, 0) := by
  decide

/-- The instance whose recipe holds an out-of-bounds corner `(-1, 1)`. -/
def c8Instance : Instance :=
  { instance_id := 0, sensor_input := ⟨2, 2, List.replicate 4 0⟩,
    corners := [[(-1, 1), (0, 1), (0, 1), (0, 1)]],
    weights := [[1, 0, 0, 0]],
    cloud_scenario := [[1]] }

/-- An instance whose recipe corners are all in bounds on its 2×2 patch. -/
def c8InboundsInstance : Instance :=
  { instance_id := 1, sensor_input := ⟨2, 2, List.replicate 4 0⟩,
    corners := [[(0, 0), (0, 1), (1, 0), (1, 1)]],
    weights := [[1, 0, 0, 0]],
    cloud_scenario := [[1]] }

/-- A concrete 1-image, 1-channel, 2×2 dense output. -/
def c8Out : List (List (List (List ℚ))) := [[[[5, 6], [7, 8]]]]

/-- **C8 (counterexample).** The applicator mutates its input: after the call,
the batch's corner array no longer holds the values it held before (the
out-of-bounds corner `(-1, 1)` has been overwritten in place). -/
theorem interp_atrain_output_mutates_counterexample :
    ¬ ((interp_atrain_output (collate_atrain [c8Instance]) c8Out).1.corners
        = (collate_atrain [c8Instance]).corners) := by
  decide

/-- **C8 (amended).** The applicator clamps the batch's corner array in
place: after the call the batch's corners hold the masked (clamped) values
while every other field is unchanged; the recipe therefore survives the call
unchanged only when every corner was already in bounds. -/
theorem interp_atrain_output_state (batch : Batch) (out : List (List (List (List ℚ)))) :
    ((interp_atrain_output batch out).1.corners
        = interpClampCorners (batchHeight batch) (batchWidth batch) batch.corners ∧
     (interp_atrain_output batch out).1.instance_id = batch.instance_id ∧
     (interp_atrain_output batch out).1.sensor_input = batch.sensor_input ∧
     (interp_atrain_output batch out).1.batch_idx = batch.batch_idx ∧
     (interp_atrain_output batch out).1.weights = batch.weights ∧
     (interp_atrain_output batch out).1.cloud_scenario = batch.cloud_scenario) ∧
    ((∀ cs ∈ batch.corners, ∀ c ∈ cs,
        0 ≤ c.1 ∧ c.1 < batchHeight batch ∧ 0 ≤ c.2 ∧ c.2 < batchWidth batch) →
      (interp_atrain_output batch out).1 = batch) := by
  refine ⟨⟨rfl, rfl, rfl, rfl, rfl, rfl⟩, ?_⟩
  intro hbd
  have hpt : ∀ cs ∈ batch.corners,
      cs.map (clampCornerBug (batchHeight batch) (batchWidth batch)) = cs := by
    intro cs hcs
    have h1 : cs.map (clampCornerBug (batchHeight batch) (batchWidth batch)) = cs.map id :=
      List.map_congr_left (fun c hc => clampCornerBug_inbounds (hbd cs hcs c hc).1
        (hbd cs hcs c hc).2.1 (hbd cs hcs c hc).2.2.1 (hbd cs hcs c hc).2.2.2)
    rw [h1, List.map_id]
  have hcl : interpClampCorners (batchHeight batch) (batchWidth batch) batch.corners
      = batch.corners := by
    unfold interpClampCorners
    have h2 : batch.corners.map
        (fun cs => cs.map (clampCornerBug (batchHeight batch) (batchWidth batch)))
        = batch.corners.map id :=
      List.map_congr_left (fun cs hcs => hpt cs hcs)
    rw [h2, List.map_id]
  show ({ batch with corners :=
    interpClampCorners (batchHeight batch) (batchWidth batch) batch.corners } : Batch) = batch
  rw [hcl]

/-- Witness for C8 (amended) on a concrete all-in-bounds batch: the batch is
returned completely unchanged. -/
theorem interp_atrain_output_state_witness :
    (interp_atrain_output (collate_atrain [c8InboundsInstance]) c8Out).1
      = collate_atrain [c8InboundsInstance] :=
  (interp_atrain_output_state (collate_atrain [c8InboundsInstance]) c8Out).2 (by decide)

/-! ### C6 -/

/-- The single-point instance of the end-to-end scenario: a 4×4 single-channel
patch with one label point at the fractional location `(1.5, 1.5)`, its recipe
produced by the recipe builder. -/
def c6Instance : Instance :=
  { instance_id := 0, sensor_input := ⟨4, 4, List.replicate 16 0⟩,
    corners := (patch_idx_to_interp [3/2] [3/2]).1,
    weights := (patch_idx_to_interp [3/2] [3/2]).2,
    cloud_scenario := [[1]] }

/-- A dense `(1, 1, 4, 4)` model output whose cell `(r, c)` holds `v r c`. -/
def c6Out (v : ℕ → ℕ → ℚ) : List (List (List (List ℚ))) :=
  [[(List.range 4).map (fun r => (List.range 4).map (fun c => v r c))]]

/-- The recipe at `(1.5, 1.5)`: corners `(1,1), (1,2), (2,1), (2,2)` with
weight `1/4` each. -/
theorem c6_recipe :
    patch_idx_to_interp [3/2] [3/2]
      = ([[(1, 1), (1, 2), (2, 1), (2, 2)]], [[1/4, 1/4, 1/4, 1/4]]) := by
  have hf : ⌊(3/2 : ℚ)⌋ = 1 := by norm_num [Int.floor_eq_iff]
  have hc : ⌈(3/2 : ℚ)⌉ = 2 := by norm_num [Int.ceil_eq_iff]
  simp only [patch_idx_to_interp, interpCornersOfPoint, interpWeightOfCorner,
    List.zipWith_cons_cons, List.zipWith_nil_right, List.map_cons, List.map_nil, hf, hc]
  norm_num
  norm_num [abs_of_nonneg]

/-- Collating the single end-to-end instance. -/
theorem c6_batch :
    collate_atrain [c6Instance]
      = { instance_id := [0], sensor_input := [⟨4, 4, List.replicate 16 0⟩],
          batch_idx := [0], corners := [[(1, 1), (1, 2), (2, 1), (2, 2)]],
          weights := [[1/4, 1/4, 1/4, 1/4]], cloud_scenario := [[1]] } := by
  simp only [collate_atrain, c6Instance, c6_recipe, List.map_cons, List.map_nil,
    List.length_cons, List.length_nil, show List.range 1 = [0] from rfl,
    List.getD_cons_zero, List.flatten]
  norm_num [List.replicate]

/-- **C6.** End-to-end: recipe builder at `(1.5, 1.5)` → collation → applicator
on a dense `(1, 1, 4, 4)` output with arbitrary cell values `v r c` yields the
single interpolated value equal to the arithmetic mean of the four cells
`(1,1), (1,2), (2,1), (2,2)`. -/
theorem c6_end_to_end (v : ℕ → ℕ → ℚ) :
    (interp_atrain_output (collate_atrain [c6Instance]) (c6Out v)).2
      = [[(v 1 1 + v 1 2 + v 2 1 + v 2 2) / 4]] := by
  rw [c6_batch]
  have h : (interp_atrain_output
      { instance_id := [0], sensor_input := [⟨4, 4, List.replicate 16 0⟩],
        batch_idx := [0], corners := [[(1, 1), (1, 2), (2, 1), (2, 2)]],
        weights := [[1/4, 1/4, 1/4, 1/4]], cloud_scenario := [[1]] } (c6Out v)).2
      = [[1/4 * v 1 1 + (1/4 * v 1 2 + (1/4 * v 2 1 + 1/4 * v 2 2))]] := rfl
  rw [h]
  have h2 : 1/4 * v 1 1 + (1/4 * v 1 2 + (1/4 * v 2 1 + 1/4 * v 2 2))
      = (v 1 1 + v 1 2 + v 2 1 + v 2 2) / 4 := by ring
  rw [h2]

/-- Witness for C6 at concrete cell values `v r c = 10*r + c`:
the interpolated value is `(11 + 12 + 21 + 22) / 4 = 33/2`. -/
theorem c6_end_to_end_witness :
    (interp_atrain_output (collate_atrain [c6Instance])
      (c6Out (fun r c => ((10 * r + c : ℕ) : ℚ)))).2 = [[33/2]] := by
  rw [c6_end_to_end (fun r c => ((10 * r + c : ℕ) : ℚ))]
  norm_num

/-! ### C1 -/

/-- **C1 (counter-evidence).** `evaluate` does *not* complete when a split
instance id is missing from the predictions mapping: the missing-prediction
branch appends its zeros but has no `continue`, so the loop still executes
`pred = predictions[inst_id]` and the whole call dies with a `KeyError`
(here: instance id 2 present in the split `[1, 2]` but absent from the
predictions, which only cover id 1). -/
theorem evaluate_missing_prediction_raises :
    evaluate [(1, [[1]]), (2, [[1]])] [1, 2] [(1, [[1]])] ALL_METRICS
      = .error (.missingPred 2) := by
  rfl

/-! ### C3 -/

/-- **C3 (counter-evidence).** The instance-id list in the returned mapping is
`list(self.instance_info.keys())`, not the evaluated split: with the split
`[1]` (one evaluated instance, every per-metric array of length 1) and an
instance-info index with keys `[1, 2]`, the returned `instance_ids` is
`[1, 2]`, not the evaluated `[1]`. -/
theorem evaluate_returns_info_keys_not_split :
    evaluate [(1, [[1]]), (2, [[1]])] [1] [(1, [[1]])] ALL_METRICS
      = .ok ⟨[("cloud_mask_accuracy", [some 1]), ("cloud_scenario_accuracy", [some 1]),
              ("cloudtop_height_bin_accuracy", [some 1]),
              ("cloudtop_height_bin_offset_error", [some 0])], [1, 2]⟩ := by
  simp only [evaluate, ALL_METRICS,
    show (["cloud_mask_accuracy", "cloud_scenario_accuracy", "cloudtop_height_bin_accuracy",
      "cloudtop_height_bin_offset_error"] : List String).eraseDups
      = ["cloud_mask_accuracy", "cloud_scenario_accuracy", "cloudtop_height_bin_accuracy",
        "cloudtop_height_bin_offset_error"] from rfl]
  simp [evalLoop, metricValue, cloud_mask_accuracy, cloud_scenario_accuracy,
    cloudtop_height_bin_accuracy, cloudtop_height_bin_offset_error, meanQ,
    cloudMask, squashBins, hBins, firstNonzeroIdx, boolIndicator, List.lookup]

/-! ### C10 -/

/-- **C10.** An instance in which no pixel is cloudy in both the prediction
and the ground truth (here: a single pixel, single bin, both zero) makes the
`both_clouds` selection empty, so the value appended for
`cloudtop_height_bin_offset_error` is the mean of an empty selection —
NaN, modelled as `none` — rather than `0` (`some 0`) and rather than the
instance being skipped (the array still has one entry for the one evaluated
instance). -/
theorem evaluate_offset_error_nan_on_empty_selection :
    evaluate [(1, [[0]])] [1] [(1, [[0]])] ALL_METRICS
      = .ok ⟨[("cloud_mask_accuracy", [some 1]), ("cloud_scenario_accuracy", [some 1]),
              ("cloudtop_height_bin_accuracy", [some 1]),
              ("cloudtop_height_bin_offset_error", [none])], [1]⟩ := by
  simp only [evaluate, ALL_METRICS,
    show (["cloud_mask_accuracy", "cloud_scenario_accuracy", "cloudtop_height_bin_accuracy",
      "cloudtop_height_bin_offset_error"] : List String).eraseDups
      = ["cloud_mask_accuracy", "cloud_scenario_accuracy", "cloudtop_height_bin_accuracy",
        "cloudtop_height_bin_offset_error"] from rfl]
  simp [evalLoop, metricValue, cloud_mask_accuracy, cloud_scenario_accuracy,
    cloudtop_height_bin_accuracy, cloudtop_height_bin_offset_error, meanQ,
    cloudMask, squashBins, hBins, firstNonzeroIdx, boolIndicator, List.lookup]
